import Mathlib

/-!
Shallow embedding of `p2p/src/handshake.rs` (grin): the connection
handshake between peers.  The nonce registry is a `VecDeque<u64>` embedded
as a `List Nat` (front of the deque = head of the list; `push_back`
appends, `pop_front` drops the head).  Random number generation and the
asynchronous stream are externalised: the random value produced by the
OS rng is a parameter, the results of `conn.peer_addr()` and of the
`read_msg` calls are parameters, and the messages written to the stream
are returned explicitly as a list.
-/

set_option maxRecDepth 8000

/-- `NONCES_CAP` from handshake.rs line 31. -/
def NONCES_CAP : Nat := 100

/-- Modelled from the spec: `PROTOCOL_VERSION` is declared in `msg.rs`,
which is not part of the given sources.  The spec states there is
"exactly one supported value today", and the code's checks compare the
received version against the literal `1`, so the supported constant is 1. -/
def PROTOCOL_VERSION : Nat := 1

/-- Modelled from the spec: `USER_AGENT` is declared in `msg.rs`, which is
not part of the given sources.  The spec describes it only as the "fixed
client identifier string"; its exact text is irrelevant to the claims. -/
def USER_AGENT : String := "grin node"

/-- An IP address: either IPv4 (four octets) or IPv6 (eight 16-bit
segments), mirroring `std::net::IpAddr`. -/
inductive IpAddr
  | v4 (a b c d : Nat)
  | v6 (s0 s1 s2 s3 s4 s5 s6 s7 : Nat)
  deriving DecidableEq, Repr

/-- `Ipv4Addr::is_loopback` / `Ipv6Addr::is_loopback` from the Rust
standard library: 127.0.0.0/8 for v4, ::1 for v6. -/
def IpAddr.is_loopback : IpAddr → Bool
  | .v4 a _ _ _ => a == 127
  | .v6 s0 s1 s2 s3 s4 s5 s6 s7 =>
      s0 == 0 && s1 == 0 && s2 == 0 && s3 == 0 &&
      s4 == 0 && s5 == 0 && s6 == 0 && s7 == 1

/-- `is_unspecified` from the Rust standard library: 0.0.0.0 for v4,
:: for v6. -/
def IpAddr.is_unspecified : IpAddr → Bool
  | .v4 a b c d => a == 0 && b == 0 && c == 0 && d == 0
  | .v6 s0 s1 s2 s3 s4 s5 s6 s7 =>
      s0 == 0 && s1 == 0 && s2 == 0 && s3 == 0 &&
      s4 == 0 && s5 == 0 && s6 == 0 && s7 == 0

/-- `std::net::SocketAddr`: an IP address paired with a port. -/
structure SocketAddr where
  ip : IpAddr
  port : Nat
  deriving DecidableEq, Repr

/-- The only part of the `TcpStream` the address logic consults:
`conn.peer_addr()`, which either reports the transport-observed remote
address or fails (`none`). -/
structure Conn where
  peer_addr : Option SocketAddr
  deriving DecidableEq, Repr

/-- `extract_ip` from handshake.rs lines 192-214.  If the advertised
address's IP is loopback or unspecified and the connection's peer address
is available, substitute the observed IP while keeping the advertised
port; otherwise return the advertised address unchanged. -/
def extract_ip (advertised : SocketAddr) (conn : Conn) : SocketAddr :=
  match advertised.ip with
  | .v4 a b c d =>
      let ip := IpAddr.v4 a b c d
      if ip.is_loopback || ip.is_unspecified then
        match conn.peer_addr with
        | some addr => { ip := addr.ip, port := advertised.port }
        | none => advertised
      else advertised
  | .v6 s0 s1 s2 s3 s4 s5 s6 s7 =>
      let ip := IpAddr.v6 s0 s1 s2 s3 s4 s5 s6 s7
      if ip.is_loopback || ip.is_unspecified then
        match conn.peer_addr with
        | some addr => { ip := addr.ip, port := advertised.port }
        | none => advertised
      else advertised

/-- `Hand` message (field list per handshake.rs lines 75-83; the message
struct itself lives in `msg.rs`).  `capabilities` is an opaque bit-set and
`total_difficulty` an opaque numeric, both embedded as `Nat`. -/
structure Hand where
  version : Nat
  capabilities : Nat
  nonce : Nat
  total_difficulty : Nat
  sender_addr : SocketAddr
  receiver_addr : SocketAddr
  user_agent : String
  deriving DecidableEq, Repr

/-- `Shake` message (field list per handshake.rs lines 157-162). -/
structure Shake where
  version : Nat
  capabilities : Nat
  total_difficulty : Nat
  user_agent : String
  deriving DecidableEq, Repr

/-- `PeerInfo` (field list per handshake.rs lines 96-102 and 149-155). -/
structure PeerInfo where
  capabilities : Nat
  user_agent : String
  addr : SocketAddr
  version : Nat
  total_difficulty : Nat
  deriving DecidableEq, Repr

/-- `ser::Error::UnexpectedData` with its `expected` and `received` byte
vectors (bytes as naturals below 256, reduced with `% 256` at the `as u8`
cast sites). -/
inductive SerError
  | UnexpectedData (expected received : List Nat)
  deriving DecidableEq, Repr

/-- `Error` from `types.rs` restricted to the variants this file raises:
`Error::Connection` (payload: the underlying io error, opaque) and
`Error::Serialization`. -/
inductive Error
  | Connection (e : Nat)
  | Serialization (e : SerError)
  deriving DecidableEq, Repr

/-- A message written to the stream via `write_msg`, tagged like
`Type::Hand` / `Type::Shake`. -/
inductive Msg
  | hand (h : Hand)
  | shake (s : Shake)
  deriving DecidableEq, Repr

/-- `Handshake::next_nonce` from handshake.rs lines 175-185, with the
OS rng output passed in as `rnd` and the registry state passed
explicitly.  Pushes the nonce at the back; if the length has reached
`NONCES_CAP` it pops the front.  Returns the nonce and the new state. -/
def next_nonce (st : List Nat) (rnd : Nat) : Nat × List Nat :=
  let nonce := rnd
  let st1 := st ++ [nonce]
  let st2 := if NONCES_CAP ≤ st1.length then st1.tail else st1
  (nonce, st2)

/-- The registry state after a `next_nonce` call (its write effect). -/
def stepNonce (st : List Nat) (rnd : Nat) : List Nat :=
  (next_nonce st rnd).2

/-- The registry contents after a sequence of `next_nonce` calls issuing
the given nonce values, starting from the fresh (empty) registry of
`Handshake::new`. -/
def runNonces (ns : List Nat) : List Nat :=
  ns.foldl stepNonce []

/-- `Handshake::connect` from handshake.rs lines 53-117.  Inputs: local
capabilities and difficulty, the local address, the result of
`conn.peer_addr()`, the rng output consumed by `next_nonce`, the result
of the `read_msg::<Shake>` call, and the current registry state.
Output: the registry state after the run, the messages written to the
stream, and the result. -/
def connect (capab : Nat) (total_difficulty : Nat) (self_addr : SocketAddr)
    (peerAddrRes : Except Nat SocketAddr) (rnd : Nat)
    (readShake : Except Error Shake) (st : List Nat) :
    List Nat × List Msg × Except Error PeerInfo :=
  let r := next_nonce st rnd
  let nonce := r.1
  let st' := r.2
  match peerAddrRes with
  | .error e => (st', [], .error (.Connection e))
  | .ok peer_addr =>
      let hand : Hand :=
        { version := PROTOCOL_VERSION
          capabilities := capab
          nonce := nonce
          total_difficulty := total_difficulty
          sender_addr := self_addr
          receiver_addr := peer_addr
          user_agent := USER_AGENT }
      match readShake with
      | .error e => (st', [Msg.hand hand], .error e)
      | .ok shake =>
          if shake.version ≠ 1 then
            (st', [Msg.hand hand],
              .error (.Serialization (.UnexpectedData
                [PROTOCOL_VERSION % 256] [shake.version % 256])))
          else
            (st', [Msg.hand hand],
              .ok { capabilities := shake.capabilities
                    user_agent := shake.user_agent
                    addr := peer_addr
                    version := shake.version
                    total_difficulty := shake.total_difficulty })

/-- `Handshake::handshake` from handshake.rs lines 121-172.  Inputs:
local capabilities and difficulty, the result of the `read_msg::<Hand>`
call, the connection (consulted by `extract_ip`), and the current
registry state.  Output: the registry state after the run, the messages
written to the stream, and the result. -/
def handshake (capab : Nat) (total_difficulty : Nat)
    (readHand : Except Error Hand) (conn : Conn) (st : List Nat) :
    List Nat × List Msg × Except Error PeerInfo :=
  match readHand with
  | .error e => (st, [], .error e)
  | .ok hand =>
      if hand.version ≠ 1 then
        (st, [], .error (.Serialization (.UnexpectedData
          [PROTOCOL_VERSION % 256] [hand.version % 256])))
      else if st.contains hand.nonce then
        (st, [], .error (.Serialization (.UnexpectedData [] [])))
      else
        let peer_info : PeerInfo :=
          { capabilities := hand.capabilities
            user_agent := hand.user_agent
            addr := extract_ip hand.sender_addr conn
            version := hand.version
            total_difficulty := hand.total_difficulty }
        let shk : Shake :=
          { version := PROTOCOL_VERSION
            capabilities := capab
            total_difficulty := total_difficulty
            user_agent := USER_AGENT }
        (st, [Msg.shake shk], .ok peer_info)

/-- Characterisation of the registry evolution: starting from any state of
length at most 99, folding `stepNonce` over a list of nonces leaves
exactly the last 99 elements of the concatenation (everything when there
are fewer).  The stable size is 99, not `NONCES_CAP = 100`, because
`next_nonce` pops whenever the post-push length reaches the cap. -/
theorem foldl_stepNonce_eq (ns : List Nat) :
    ∀ q : List Nat, q.length ≤ 99 →
      List.foldl stepNonce q ns = (q ++ ns).drop (q.length + ns.length - 99) := by
  induction ns with
  | nil =>
      intro q hq
      have h0 : q.length - 99 = 0 := by omega
      simp [h0]
  | cons n ns ih =>
      intro q hq
      rw [List.foldl_cons]
      by_cases h : q.length = 99
      · obtain ⟨a, t, rfl⟩ : ∃ a t, q = a :: t := by
          cases q with
          | nil => simp at h
          | cons a t => exact ⟨a, t, rfl⟩
        have ht : t.length = 98 := by simpa using h
        have hstep : stepNonce (a :: t) n = t ++ [n] := by
          have hc : NONCES_CAP ≤ t.length + 1 + 1 := by
            simp [NONCES_CAP, ht]
          simp [stepNonce, next_nonce, hc]
        rw [hstep, ih (t ++ [n]) (by simp [ht])]
        have h1 : (t ++ [n]).length + ns.length - 99 = ns.length := by
          simp only [List.length_append, List.length_cons, List.length_nil, ht]
          omega
        have h2 : (a :: t).length + (n :: ns).length - 99 = ns.length + 1 := by
          simp only [List.length_cons, ht]
          omega
        rw [h1, h2]
        simp [List.append_assoc]
      · have hstep : stepNonce q n = q ++ [n] := by
          have hc : ¬ NONCES_CAP ≤ q.length + 1 := by
            simp [NONCES_CAP]
            omega
          simp [stepNonce, next_nonce, hc]
        rw [hstep, ih (q ++ [n]) (by simp; omega)]
        have h1 : (q ++ [n]).length + ns.length
            = q.length + (n :: ns).length := by
          simp
          omega
        rw [h1, List.append_assoc]
        simp

/-- The registry after a run from the fresh registry holds exactly the
last 99 nonces issued (all of them when fewer than 99 were issued). -/
theorem runNonces_eq (ns : List Nat) :
    runNonces ns = ns.drop (ns.length - 99) := by
  have h := foldl_stepNonce_eq ns [] (by simp)
  simpa [runNonces] using h

/-- Membership of `x` in a suffix of `a ++ x :: b` when `x` does not
occur in `b`: the suffix obtained by dropping `d` elements still holds
`x` exactly when the drop did not reach past `x`'s position. -/
theorem mem_drop_append_iff (a b : List Nat) (x : Nat) (d : Nat)
    (hxb : x ∉ b) : x ∈ (a ++ x :: b).drop d ↔ d ≤ a.length := by
  constructor
  · intro hmem
    by_contra hd
    push_neg at hd
    rw [List.drop_append_eq_append_drop] at hmem
    have ha : a.drop d = [] := List.drop_eq_nil_of_le (by omega)
    rw [ha, List.nil_append] at hmem
    obtain ⟨k, hk⟩ : ∃ k, d - a.length = k + 1 := ⟨d - a.length - 1, by omega⟩
    rw [hk, List.drop_succ_cons] at hmem
    exact hxb (List.mem_of_mem_drop hmem)
  · intro hd
    rw [List.drop_append_eq_append_drop]
    have h0 : d - a.length = 0 := by omega
    rw [h0, List.drop_zero]
    exact List.mem_append_right _ (List.mem_cons_self _ _)

/-- C1: the claim says the registry is a bounded FIFO of capacity 100
whose 101st insertion evicts the 1st.  Counterexample: after 101 calls
to `next_nonce` starting from the fresh registry, the registry holds 99
values, not the most recent 100. -/
theorem C1_counterexample : (runNonces (List.range 101)).length ≠ 100 := by
  decide

/-- C1 (amended): the registry behaves as a bounded FIFO whose stable
capacity is 99: after any sequence of `next_nonce` calls from the fresh
registry it holds exactly the most recent 99 nonces issued (all of them
when fewer than 99 were issued, so the 100th call evicts the 1st) and
its size never exceeds 99. -/
theorem C1_registry_fifo (ns : List Nat) :
    runNonces ns = ns.drop (ns.length - 99) ∧ (runNonces ns).length ≤ 99 := by
  refine ⟨runNonces_eq ns, ?_⟩
  rw [runNonces_eq, List.length_drop]
  omega

/-- C2: the claim says `contains x` stays true until 100 further
insertions have occurred.  Counterexample: insert 0 and then only 99
further distinct nonces; `contains 0` is already false. -/
theorem C2_counterexample : (runNonces (List.range 100)).contains 0 = false := by
  decide

/-- C2 (amended): for pairwise-distinct nonces, after `next_nonce`
issues `x` the registry contains `x` exactly as long as at most 98
further insertions have occurred; once 99 further insertions have
occurred `contains x` is false.  In particular `contains x` is true
immediately after the issuing call returns. -/
theorem C2_contains_window (a b : List Nat) (x : Nat)
    (hnd : (a ++ x :: b).Nodup) :
    ((runNonces (a ++ x :: b)).contains x = true ↔ b.length ≤ 98) := by
  have hxb : x ∉ b := (List.nodup_cons.mp hnd.of_append_right).1
  rw [runNonces_eq]
  have hcm : ∀ l : List Nat, l.contains x = true ↔ x ∈ l := by
    intro l
    simp
  rw [hcm, mem_drop_append_iff a b x _ hxb]
  have hlen : (a ++ x :: b).length = a.length + (b.length + 1) := by
    simp
  rw [hlen]
  omega

/-- Witness for the amended C2 at a concrete input: the registry after
issuing 10, 20, 30 still contains 20, since only one further insertion
occurred. -/
theorem C2_contains_window_witness :
    (runNonces ([10] ++ 20 :: [30])).contains 20 = true ↔
      List.length [30] ≤ 98 :=
  C2_contains_window [10] [30] 20 (by decide)

/-- A concrete loopback advertised address, 127.0.0.1:7000. -/
def addrLoop : SocketAddr := { ip := .v4 127 0 0 1, port := 7000 }

/-- A concrete observed transport address, 203.0.113.5:45678. -/
def addrObs : SocketAddr := { ip := .v4 203 0 113 5, port := 45678 }

/-- A concrete routable advertised address, 198.51.100.9:7000. -/
def addrPub : SocketAddr := { ip := .v4 198 51 100 9, port := 7000 }

/-- A connection whose `peer_addr()` reports `addrObs`. -/
def connObs : Conn := { peer_addr := some addrObs }

/-- A concrete Hand with an unsupported version (2) and nonce 5. -/
def handV2n5 : Hand :=
  { version := 2, capabilities := 0, nonce := 5, total_difficulty := 0,
    sender_addr := addrPub, receiver_addr := addrPub, user_agent := "x" }

/-- A concrete Hand with the supported version and nonce 5. -/
def handV1n5 : Hand :=
  { version := 1, capabilities := 3, nonce := 5, total_difficulty := 7,
    sender_addr := addrPub, receiver_addr := addrPub, user_agent := "x" }

/-- A concrete Shake with an unsupported version (2). -/
def shakeV2 : Shake :=
  { version := 2, capabilities := 0, total_difficulty := 0, user_agent := "y" }

/-- A concrete Shake with the supported version. -/
def shakeV1 : Shake :=
  { version := 1, capabilities := 9, total_difficulty := 11, user_agent := "peer" }

/-- C3: the claim quantifies over every inbound Hand whose nonce is in
the registry, but a Hand with an unsupported version fails the version
check first, with a payload-carrying error, not the empty-payload one.
Concretely: nonce 5 is registered, yet `handshake` on a version-2 Hand
with nonce 5 does not produce the empty expected/received error. -/
theorem C3_counterexample :
    List.contains [5] handV2n5.nonce = true ∧
    (handshake 0 0 (.ok handV2n5) connObs [5]).2.2 ≠
      .error (.Serialization (.UnexpectedData [] [])) := by
  refine ⟨rfl, ?_⟩
  have h : (handshake 0 0 (.ok handV2n5) connObs [5]).2.2 =
      .error (.Serialization (.UnexpectedData [1] [2])) := rfl
  rw [h]
  simp

/-- C3 (amended): for every inbound Hand whose version equals the
supported constant and whose nonce is currently registered, `handshake`
fails with the error carrying empty expected and received byte
sequences, writes nothing to the stream, and leaves the registry
unchanged. -/
theorem C3_self_connection_rejected (capab td : Nat) (hand : Hand)
    (conn : Conn) (st : List Nat)
    (hv : hand.version = 1) (hn : st.contains hand.nonce = true) :
    handshake capab td (.ok hand) conn st =
      (st, [], .error (.Serialization (.UnexpectedData [] []))) := by
  have hn' : hand.nonce ∈ st := by simpa using hn
  simp [handshake, hv, hn']

/-- Witness for the amended C3: nonce 5 registered, version-1 Hand with
nonce 5 is rejected silently. -/
theorem C3_witness :
    handshake 0 0 (.ok handV1n5) connObs [5] =
      ([5], [], .error (.Serialization (.UnexpectedData [] []))) :=
  C3_self_connection_rejected 0 0 handV1n5 connObs [5] (by decide) (by decide)

/-- C4: in both directions a received message whose version differs from
the supported constant makes the run fail with the version-mismatch
error whose expected field is the single byte of the supported version
and whose received field is the single byte of the reported version; the
result is an error, so no PeerInfo is produced. -/
theorem C4_version_mismatch :
    (∀ (capab td : Nat) (self_addr pa : SocketAddr) (rnd : Nat)
        (shake : Shake) (st : List Nat), shake.version ≠ 1 →
        (connect capab td self_addr (.ok pa) rnd (.ok shake) st).2.2 =
          .error (.Serialization (.UnexpectedData [PROTOCOL_VERSION % 256]
            [shake.version % 256]))) ∧
    (∀ (capab td : Nat) (hand : Hand) (conn : Conn) (st : List Nat),
        hand.version ≠ 1 →
        (handshake capab td (.ok hand) conn st).2.2 =
          .error (.Serialization (.UnexpectedData [PROTOCOL_VERSION % 256]
            [hand.version % 256]))) := by
  constructor
  · intro capab td self_addr pa rnd shake st hv
    simp [connect, hv]
  · intro capab td hand conn st hv
    simp [handshake, hv]

/-- Witness for C4 at concrete inputs with reported version 2. -/
theorem C4_witness :
    (connect 0 0 addrPub (.ok addrObs) 42 (.ok shakeV2) []).2.2 =
      .error (.Serialization (.UnexpectedData [PROTOCOL_VERSION % 256]
        [shakeV2.version % 256])) ∧
    (handshake 0 0 (.ok handV2n5) connObs []).2.2 =
      .error (.Serialization (.UnexpectedData [PROTOCOL_VERSION % 256]
        [handV2n5.version % 256])) :=
  ⟨C4_version_mismatch.1 0 0 addrPub addrObs 42 shakeV2 [] (by decide),
   C4_version_mismatch.2 0 0 handV2n5 connObs [] (by decide)⟩

/-- C5: `extract_ip` substitutes the observed IP (keeping the advertised
port) exactly when the advertised IP is loopback or unspecified and an
observed address is available, and returns the advertised address
unchanged whenever the advertised IP is neither. -/
theorem C5_extract_ip_correction :
    (∀ (advertised : SocketAddr) (conn : Conn) (obs : SocketAddr),
        conn.peer_addr = some obs →
        (advertised.ip.is_loopback || advertised.ip.is_unspecified) = true →
        extract_ip advertised conn =
          { ip := obs.ip, port := advertised.port }) ∧
    (∀ (advertised : SocketAddr) (conn : Conn),
        (advertised.ip.is_loopback || advertised.ip.is_unspecified) = false →
        extract_ip advertised conn = advertised) := by
  constructor
  · rintro ⟨ip, port⟩ conn obs hpa hip
    cases ip <;> simp_all [extract_ip]
  · rintro ⟨ip, port⟩ conn hip
    cases ip <;> simp_all [extract_ip]

/-- Witness for C5 at the spec's example inputs:
extract_ip(127.0.0.1:7000, observed 203.0.113.5) = 203.0.113.5:7000 and
extract_ip(198.51.100.9:7000, observed 203.0.113.5) unchanged. -/
theorem C5_extract_ip_correction_witness :
    extract_ip addrLoop connObs = { ip := addrObs.ip, port := addrLoop.port } ∧
    extract_ip addrPub connObs = addrPub :=
  ⟨C5_extract_ip_correction.1 addrLoop connObs addrObs (by decide) (by decide),
   C5_extract_ip_correction.2 addrPub connObs (by decide)⟩

/-- C6: a successful `connect` run (remote address available, Shake read
with the supported version) yields a PeerInfo whose capabilities,
user_agent, total_difficulty and version equal the received Shake's
fields and whose address is the remote transport address reported by the
connection. -/
theorem C6_connect_ok (capab td : Nat) (self_addr pa : SocketAddr)
    (rnd : Nat) (shake : Shake) (st : List Nat) (hv : shake.version = 1) :
    (connect capab td self_addr (.ok pa) rnd (.ok shake) st).2.2 =
      .ok { capabilities := shake.capabilities
            user_agent := shake.user_agent
            addr := pa
            version := shake.version
            total_difficulty := shake.total_difficulty } := by
  simp [connect, hv]

/-- Witness for C6 at concrete inputs. -/
theorem C6_witness :
    (connect 0 0 addrPub (.ok addrObs) 42 (.ok shakeV1) []).2.2 =
      .ok { capabilities := shakeV1.capabilities
            user_agent := shakeV1.user_agent
            addr := addrObs
            version := shakeV1.version
            total_difficulty := shakeV1.total_difficulty } :=
  C6_connect_ok 0 0 addrPub addrObs 42 shakeV1 [] (by decide)

/-- C7: a successful `handshake` run builds its PeerInfo from the
received Hand's capabilities, user_agent, version and total_difficulty
plus the `extract_ip`-corrected sender address, and writes exactly one
Shake whose version is the supported constant, whose capabilities and
total_difficulty are the local values, and whose user_agent is the fixed
identifier. -/
theorem C7_handshake_ok (capab td : Nat) (hand : Hand) (conn : Conn)
    (st : List Nat) (hv : hand.version = 1)
    (hn : st.contains hand.nonce = false) :
    (handshake capab td (.ok hand) conn st).2 =
      ([Msg.shake { version := PROTOCOL_VERSION
                    capabilities := capab
                    total_difficulty := td
                    user_agent := USER_AGENT }],
       .ok { capabilities := hand.capabilities
             user_agent := hand.user_agent
             addr := extract_ip hand.sender_addr conn
             version := hand.version
             total_difficulty := hand.total_difficulty }) := by
  have hn' : hand.nonce ∉ st := by simpa using hn
  simp [handshake, hv, hn']

/-- Witness for C7 at concrete inputs (empty registry, version-1 Hand). -/
theorem C7_witness :
    (handshake 4 6 (.ok handV1n5) connObs []).2 =
      ([Msg.shake { version := PROTOCOL_VERSION
                    capabilities := 4
                    total_difficulty := 6
                    user_agent := USER_AGENT }],
       .ok { capabilities := handV1n5.capabilities
             user_agent := handV1n5.user_agent
             addr := extract_ip handV1n5.sender_addr connObs
             version := handV1n5.version
             total_difficulty := handV1n5.total_difficulty }) :=
  C7_handshake_ok 4 6 handV1n5 connObs [] (by decide) (by decide)

/-- C8: the claim says `connect` obtains the remote address before
requesting a nonce, so that a failed `peer_addr()` leaves the registry
untouched.  Counterexample: with the fresh (empty) registry and a
failing `peer_addr()`, the registry after the run is not empty — the
nonce was registered before the address was obtained. -/
theorem C8_counterexample :
    (connect 0 0 addrPub (.error 0) 42 (.ok shakeV1) []).1 ≠ [] := by
  decide

/-- C8 (amended): `connect` requests a nonce from the registry first and
only then obtains the remote transport address; when obtaining the
remote transport address fails, connect fails with a terminal Connection
error and writes nothing, but exactly one nonce has been added to the
registry by that run. -/
theorem C8_connect_addr_fail (capab td : Nat) (self_addr : SocketAddr)
    (e : Nat) (rnd : Nat) (readShake : Except Error Shake) (st : List Nat) :
    connect capab td self_addr (.error e) rnd readShake st =
      (stepNonce st rnd, [], .error (.Connection e)) := by
  rfl

/-- C10: `handshake` never mutates the nonce registry — every run,
successful or failed, returns the registry state it was given; only
`connect` (via `next_nonce`) inserts entries. -/
theorem C10_handshake_registry_frame (capab td : Nat)
    (readHand : Except Error Hand) (conn : Conn) (st : List Nat) :
    (handshake capab td readHand conn st).1 = st := by
  cases readHand with
  | error e => rfl
  | ok hand =>
      simp only [handshake]
      split
      · rfl
      · split
        · rfl
        · rfl

/-- C9: when the connection's peer address is unavailable, `extract_ip`
returns the advertised address unchanged — also when the advertised IP
is loopback or unspecified; the correction is silently skipped. -/
theorem C9_extract_ip_no_observed (advertised : SocketAddr) :
    extract_ip advertised { peer_addr := none } = advertised := by
  obtain ⟨ip, port⟩ := advertised
  cases ip <;> simp [extract_ip]
